import Mathlib

/-!
Verification of the cncjs TinyG controller driver core
(`src/server/controllers/TinyG/TinyGController.js`).

The controller itself is embedded directly from the source file.  Its
collaborators (Sender, Feeder, Workflow, TinyGRunner, planner-buffer
constants) live outside the packaged sources, so they are modelled from the
specification: each such definition carries a doc comment starting with
`Modelled from the spec:`.

Conventions of the embedding:
* JS strings are Lean `String`s; the few regular expressions used by the
  controller are replaced by equivalent structural functions on `List Char`.
* JS numbers that take fractional values (firmware build `fb`, override
  fractions) are embedded as `Rat`; counters are `Nat`.
* The single-threaded event loop is a step function `stepEv` on the
  controller state; besides the next state each handler returns the ordered
  list of observable actions (`TAct`) it performed: sender/feeder calls and
  transport writes.
* External collaborators referenced only by contract (expression evaluator,
  g-code tokenizer, configuration store) are modelled at the interface the
  controller uses: `translateExpression` is the identity on the
  bracket-free lines considered here, the tokenizer splits on whitespace,
  and the context population (which has no effect on controller state) is
  elided.
-/

/-- Remove leading and trailing whitespace, like the JS `String.trim`. -/
def trimChars (l : List Char) : List Char :=
  ((l.dropWhile Char.isWhitespace).reverse.dropWhile Char.isWhitespace).reverse

/-- JS `line.replace(/\s*;.*/g, '').trim()`: the regex deletes everything
from the first semicolon (together with the whitespace just before it) to
the end of the line, and the trailing `trim` removes remaining outer
whitespace; so the composite keeps the trimmed prefix before the first
semicolon. -/
def tgStrip (line : String) : String :=
  String.mk (trimChars (line.data.takeWhile (fun c => c ≠ ';')))

/-- JS `line.replace(/\s+/g, '')`: remove every whitespace character. -/
def stripWS (s : String) : String :=
  String.mk (s.data.filter (fun c => !c.isWhitespace))

/-- JS `line.replace(/^N[0-9]*/, '')`: drop a leading capital `N` together
with the digits that follow it. -/
def dropLeadingN (s : String) : String :=
  match s.data with
  | 'N' :: rest => String.mk (rest.dropWhile Char.isDigit)
  | _ => s

def splitWSAux : List Char → List Char → List String
  | [], acc => if acc.isEmpty then [] else [String.mk acc.reverse]
  | c :: cs, acc =>
    if c.isWhitespace then
      (if acc.isEmpty then splitWSAux cs []
       else String.mk acc.reverse :: splitWSAux cs [])
    else splitWSAux cs (c :: acc)

/-- Modelled from the spec: the external g-code tokenizer
(`gcode-parser.parseLine` with `flatten`), used by the controller only to
look for the words `M0`, `M1`, `M6`; modelled as whitespace splitting. -/
def tgWords (s : String) : List String := splitWSAux s.data []

/-- Workflow states (`lib/Workflow`, spec section 4.7). -/
inductive WorkflowState
  | idle
  | running
  | paused
  deriving DecidableEq, Repr

/-- The controller's `senderStatus` field: `none`, `next` or `ack`. -/
inductive SenderStatus
  | statusNone
  | statusNext
  | statusAck
  deriving DecidableEq, Repr

/-- Hold reasons passed to `sender.hold` / `feeder.hold` / `workflow.pause`:
either a `{ data: … }` object or an `{ err: … }` object. -/
inductive HoldReason
  | hdata (s : String)
  | herr (s : String)
  deriving DecidableEq, Repr

/-- The status-report mask `this.sr`, in source declaration order
(object-key insertion order, which JS preserves). -/
structure SrMask where
  stat : Bool
  line : Bool
  vel : Bool
  feed : Bool
  unit : Bool
  coor : Bool
  momo : Bool
  plan : Bool
  path : Bool
  dist : Bool
  admo : Bool
  frmo : Bool
  tool : Bool
  posx : Bool
  posy : Bool
  posz : Bool
  posa : Bool
  posb : Bool
  posc : Bool
  mpox : Bool
  mpoy : Bool
  mpoz : Bool
  mpoa : Bool
  mpob : Bool
  mpoc : Bool
  spe : Bool
  spd : Bool
  spc : Bool
  sps : Bool
  com : Bool
  cof : Bool
  deriving DecidableEq, Repr

/-- Initial status-report mask: every field enabled. -/
def srDefault : SrMask :=
  ⟨true, true, true, true, true, true, true, true, true, true, true, true,
   true, true, true, true, true, true, true, true, true, true, true, true,
   true, true, true, true, true, true, true⟩

/-- The capability-probe part of a decoded `r` frame: for each probed field
whether it is present with value `null` (JS `r.spe === null` and so on).
A field that is absent or carries a non-null value leaves the mask alone. -/
structure RCaps where
  speNull : Bool
  spdNull : Bool
  spcNull : Bool
  spsNull : Bool
  comNull : Bool
  cofNull : Bool
  deriving DecidableEq, Repr

/-- An `r` frame that carries none of the probed capability fields. -/
def rCapsNone : RCaps := ⟨false, false, false, false, false, false⟩

/-- The capability updates at the top of `runner.on('r')`: any probed field
equal to `null` clears the corresponding status-report mask bit. -/
def updateSrCaps (m : SrMask) (r : RCaps) : SrMask :=
  { m with
    spe := if r.speNull then false else m.spe,
    spd := if r.spdNull then false else m.spd,
    spc := if r.spcNull then false else m.spc,
    sps := if r.spsNull then false else m.sps,
    com := if r.comNull then false else m.com,
    cof := if r.cofNull then false else m.cof }

/-- The mask as the ordered key/value list that `JSON.stringify` would
iterate over. -/
def srAssoc (m : SrMask) : List (String × Bool) :=
  [("stat", m.stat), ("line", m.line), ("vel", m.vel), ("feed", m.feed),
   ("unit", m.unit), ("coor", m.coor), ("momo", m.momo), ("plan", m.plan),
   ("path", m.path), ("dist", m.dist), ("admo", m.admo), ("frmo", m.frmo),
   ("tool", m.tool), ("posx", m.posx), ("posy", m.posy), ("posz", m.posz),
   ("posa", m.posa), ("posb", m.posb), ("posc", m.posc), ("mpox", m.mpox),
   ("mpoy", m.mpoy), ("mpoz", m.mpoz), ("mpoa", m.mpoa), ("mpob", m.mpob),
   ("mpoc", m.mpoc), ("spe", m.spe), ("spd", m.spd), ("spc", m.spc),
   ("sps", m.sps), ("com", m.com), ("cof", m.cof)]

/-- Keys picked by `_.pickBy(this.sr, value => !!value)` in `initController`:
the keys whose mask bit is still set, in declaration order. -/
def srCmdKeys (m : SrMask) : List String :=
  ((srAssoc m).filter (fun p => p.2)).map Prod.fst

/-- The status-report field-selection command sent by `initController`:
`relaxedJSON` strips the double quotes of the minified JSON and abbreviates
`true` to `t`, so each picked key contributes `key:t`. -/
def srCmd (m : SrMask) : String :=
  "\x7bsr:\x7b" ++ String.intercalate "," ((srCmdKeys m).map (fun k => k ++ ":t")) ++ "\x7d\x7d"

/-- Feed-override arithmetic of `command('override:feed')`: `mfo` is the
current override fraction (`runner.settings.mfo`) and `value` the requested
percentage delta. -/
def overrideFeedValue (mfo value : Rat) : Rat :=
  if value = 0 then 1
  else if mfo * 100 + value > 200 then 2
  else if mfo * 100 + value < 5 then 0.05
  else (mfo * 100 + value) / 100

/-- Spindle-override arithmetic of `command('override:spindle')`, on the
current fraction `runner.settings.sso`. -/
def overrideSpindleValue (sso value : Rat) : Rat :=
  if value = 0 then 1
  else if sso * 100 + value > 200 then 2
  else if sso * 100 + value < 5 then 0.05
  else (sso * 100 + value) / 100

/-- The queue-report poke `{"qr":""}` issued by several command handlers. -/
def qrPoke : String := "\x7b\"qr\":\"\"\x7d"

/-- The `writeln` payloads of `command('sender:stop')`: with `force` the
firmware-dialect sequence selected by the numeric firmware build, always
followed by the queue-report poke.  `writeln` appends a newline to each
payload before handing it to the transport (see `senderStopBytes`). -/
def senderStopPayloads (force : Bool) (firmwareBuild : Rat) : List String :=
  (if force then
    (if firmwareBuild ≥ 101 then ["\x04"]
     else if firmwareBuild ≥ 100 then ["\x04", "M30"]
     else ["!", "%", "M30"])
   else []) ++ [qrPoke]

/-- The byte strings actually written by `command('sender:stop')`, each
payload newline-terminated by `writeln`. -/
def senderStopBytes (force : Bool) (firmwareBuild : Rat) : List String :=
  (senderStopPayloads force firmwareBuild).map (fun s => s ++ "\n")

/-- The `sender.on('data')` handler: drops the line when the connection is
closed, when the workflow is idle, or when nothing remains after removing
whitespace; otherwise removes a leading N-number and prefixes `N<sent>`.
The caller appends the terminating newline. -/
def senderDataLine (isClose : Bool) (wf : WorkflowState) (sent : Nat) (line : String) : Option String :=
  if isClose then none
  else if wf = WorkflowState.idle then none
  else
    let l := stripWS line
    if l.length = 0 then none
    else some ("N" ++ Nat.repr sent ++ dropLeadingN l)

/-- Modelled from the spec: SenderState (spec section 4.6) — the loaded
program `lines`, the monotone pointers `sent` and `received`, and the hold
flag with its reason.  `total` is the number of loaded lines. -/
structure SenderState where
  lines : List String
  sent : Nat
  received : Nat
  hold : Bool
  holdReason : Option HoldReason
  deriving DecidableEq, Repr

def SenderState.total (s : SenderState) : Nat := s.lines.length

/-- Modelled from the spec: FeederState (spec section 4.5) — an unbounded
FIFO with a hold flag and reason. -/
structure FeederState where
  queue : List String
  hold : Bool
  holdReason : Option HoldReason
  deriving DecidableEq, Repr

/-- The controller instance state used by the frame and command handlers.
`plannerBufferPoolSize` mirrors `runner.plannerBufferPoolSize` (a
firmware-dependent, Runner-derived quantity the spec leaves open), `fb` the
mirrored firmware-build setting, `ignoreErrors` the configuration flag
`state.controller.exception.ignoreErrors`, `alarm` the Runner alarm
predicate and `isClose` the transport state; the last four are parameters
that no modelled event changes. -/
structure Ctrl where
  workflow : WorkflowState
  blocked : Bool
  senderStatus : SenderStatus
  sender : SenderState
  feeder : FeederState
  sr : SrMask
  stateQr : Nat
  plannerBufferPoolSize : Nat
  fb : Rat
  ignoreErrors : Bool
  alarm : Bool
  isClose : Bool
  deriving DecidableEq, Repr

/-- Observable actions of one handler run, in execution order: Sender and
Feeder lifecycle calls, transport writes (tagged by their source) and the
structured error broadcast of the `f` handler. -/
inductive TAct
  | senderAckA
  | senderNextA
  | senderHoldA (r : Option HoldReason)
  | senderUnholdA
  | feederNextA
  | feederHoldA (r : Option HoldReason)
  | feederUnholdA
  | workflowPauseA (r : Option HoldReason)
  | sendWrite (line : String)
  | feedWrite (line : String)
  | ctrlWrite (line : String)
  | emitErr (code : Int)
  deriving DecidableEq, Repr

/-- Modelled from the spec: `sender.hold(reason)` sets the hold flag and
records the reason. -/
def senderHoldOp (c : Ctrl) (r : Option HoldReason) : Ctrl × List TAct :=
  ({ c with sender := { c.sender with hold := true, holdReason := r } },
   [TAct.senderHoldA r])

/-- Modelled from the spec: `sender.unhold()` clears the hold flag. -/
def senderUnholdOp (c : Ctrl) : Ctrl × List TAct :=
  ({ c with sender := { c.sender with hold := false, holdReason := none } },
   [TAct.senderUnholdA])

/-- Modelled from the spec: `sender.ack()` increments `received` (the `end`
event it fires at `received == total` only records the finish time, which
no claim observes, and is elided). -/
def senderAckOp (c : Ctrl) : Ctrl × List TAct :=
  ({ c with sender := { c.sender with received := c.sender.received + 1 } },
   [TAct.senderAckA])

/-- Modelled from the spec: `sender.rewind()` zeroes both counters and
clears the hold. -/
def senderRewind (s : SenderState) : SenderState :=
  { s with sent := 0, received := 0, hold := false, holdReason := none }

/-- Modelled from the spec: `feeder.reset()` drains the queue and clears
the hold. -/
def feederReset (f : FeederState) : FeederState :=
  { f with queue := [], hold := false, holdReason := none }

def feederHoldOp (c : Ctrl) (r : Option HoldReason) : Ctrl × List TAct :=
  ({ c with feeder := { c.feeder with hold := true, holdReason := r } },
   [TAct.feederHoldA r])

def feederUnholdOp (c : Ctrl) : Ctrl × List TAct :=
  ({ c with feeder := { c.feeder with hold := false, holdReason := none } },
   [TAct.feederUnholdA])

/-- Modelled from the spec: `workflow.pause(reason?)` transitions
running → paused; the controller's `workflow.on('pause')` handler then
broadcasts the state and holds the Sender with the given reason. -/
def workflowPauseOp (c : Ctrl) (r : Option HoldReason) : Ctrl × List TAct :=
  if c.workflow = WorkflowState.running then
    let p := senderHoldOp { c with workflow := WorkflowState.paused } r
    (p.1, TAct.workflowPauseA r :: p.2)
  else (c, [])

/-- Modelled from the spec: `workflow.start()` transitions to running; the
`workflow.on('start')` handler clears `blocked`, resets `senderStatus` to
none and rewinds the Sender. -/
def workflowStartOp (c : Ctrl) : Ctrl :=
  if c.workflow = WorkflowState.running then c
  else
    { c with workflow := WorkflowState.running, blocked := false,
             senderStatus := SenderStatus.statusNone,
             sender := senderRewind c.sender }

/-- Modelled from the spec: `workflow.stop()` transitions to idle; the
`workflow.on('stop')` handler has the same side effects as start's. -/
def workflowStopOp (c : Ctrl) : Ctrl :=
  if c.workflow = WorkflowState.idle then c
  else
    { c with workflow := WorkflowState.idle, blocked := false,
             senderStatus := SenderStatus.statusNone,
             sender := senderRewind c.sender }

/-- The Sender `dataFilter` closure: strip the `;` comment and trim; a
literal `%wait` holds the Sender and substitutes the dwell `G4 P0.5`; any
other `%`-line is an assignment evaluated against the context (an external
collaborator mutating only the expression context) and transmits nothing;
otherwise the tokens are inspected for M0/M1 (program pause) and M6 (tool
change), each pausing the workflow with the word as reason. -/
def senderDataFilter (c : Ctrl) (line : String) : Ctrl × List TAct × String :=
  let l := tgStrip line
  match l.data with
  | '%' :: _ =>
    if l = "%wait" then
      let p := senderHoldOp c (some (HoldReason.hdata "%wait"))
      (p.1, p.2, "G4 P0.5")
    else (c, [], "")
  | _ =>
    let ws := tgWords l
    let p1 :=
      match (ws.filter (fun w => w == "M0" || w == "M1")).head? with
      | some w => workflowPauseOp c (some (HoldReason.hdata w))
      | none => (c, [])
    let p2 :=
      if ws.contains "M6" then
        let q := workflowPauseOp p1.1 (some (HoldReason.hdata "M6"))
        (q.1, p1.2 ++ q.2)
      else p1
    (p2.1, p2.2, l)

/-- The Feeder `dataFilter` closure: as the Sender's, but `%wait` and the
M0/M1/M6 words hold the Feeder itself instead of pausing the workflow. -/
def feederDataFilter (c : Ctrl) (line : String) : Ctrl × List TAct × String :=
  let l := tgStrip line
  match l.data with
  | '%' :: _ =>
    if l = "%wait" then
      let p := feederHoldOp c (some (HoldReason.hdata "%wait"))
      (p.1, p.2, "G4 P0.5")
    else (c, [], "")
  | _ =>
    let ws := tgWords l
    let p1 :=
      match (ws.filter (fun w => w == "M0" || w == "M1")).head? with
      | some w => feederHoldOp c (some (HoldReason.hdata w))
      | none => (c, [])
    let p2 :=
      if ws.contains "M6" then
        let q := feederHoldOp p1.1 (some (HoldReason.hdata "M6"))
        (q.1, p1.2 ++ q.2)
      else p1
    (p2.1, p2.2, l)

/-- Modelled from the spec: `sender.next()` — a no-op when held or when
`sent == total`; otherwise the pending line passes through the expression
stage (the Sender `dataFilter`), the `data` event fires (whose handler
`senderDataLine` may write to the transport), and `sent` is incremented. -/
def senderNextOp (c : Ctrl) : Ctrl × List TAct :=
  if c.sender.hold ∨ c.sender.sent = c.sender.total then (c, [TAct.senderNextA])
  else
    let f := senderDataFilter c (c.sender.lines.getD c.sender.sent "")
    let w :=
      match senderDataLine f.1.isClose f.1.workflow f.1.sender.sent f.2.2 with
      | some out => [TAct.sendWrite (out ++ "\n")]
      | none => []
    ({ f.1 with sender := { f.1.sender with sent := f.1.sender.sent + 1 } },
     TAct.senderNextA :: f.2.1 ++ w)

/-- Modelled from the spec: `feeder.next()` — a no-op when held or empty;
otherwise one line is pulled, filtered, and emitted.  The `feeder.on('data')`
handler drops it when the connection is closed, resets the Feeder in alarm
mode, drops blank lines, and otherwise writes the trimmed line. -/
def feederNextOp (c : Ctrl) : Ctrl × List TAct :=
  if c.feeder.hold then (c, [TAct.feederNextA])
  else
    match c.feeder.queue with
    | [] => (c, [TAct.feederNextA])
    | line :: rest =>
      let c0 := { c with feeder := { c.feeder with queue := rest } }
      let f := feederDataFilter c0 line
      if f.1.isClose then (f.1, TAct.feederNextA :: f.2.1)
      else if f.1.alarm then
        ({ f.1 with feeder := feederReset f.1.feeder }, TAct.feederNextA :: f.2.1)
      else
        let out := String.mk (trimChars f.2.2.data)
        if out.length = 0 then (f.1, TAct.feederNextA :: f.2.1)
        else (f.1, TAct.feederNextA :: f.2.1 ++ [TAct.feedWrite (out ++ "\n")])

/-- Modelled from the spec: `workflow.resume()` transitions paused →
running; the `workflow.on('resume')` handler resets the Feeder, unholds the
Sender and calls `sender.next()`. -/
def workflowResumeOp (c : Ctrl) : Ctrl × List TAct :=
  if c.workflow = WorkflowState.paused then
    let c1 := { c with workflow := WorkflowState.running, feeder := feederReset c.feeder }
    let p := senderUnholdOp c1
    let q := senderNextOp p.1
    (q.1, p.2 ++ q.2)
  else (c, [])

/-- Modelled from the spec: planner-buffer low-water mark
(`TINYG_PLANNER_BUFFER_LOW_WATER_MARK`, a firmware-dependent compile-time
constant of the controller's constants module; the spec's scenarios use 8). -/
def lowWaterMark : Nat := 8

/-- Modelled from the spec: planner-buffer high-water mark
(`TINYG_PLANNER_BUFFER_HIGH_WATER_MARK`; the spec's scenarios use 20). -/
def highWaterMark : Nat := 20

/-- The dwell line appended to every loaded program by
`command('sender:load')`. -/
def waitDwellLine : String := "%wait ; Wait for the planner to empty"

/-- The `runner.on('r')` handler: capability updates, then the
acknowledgement gate of the flow-control protocol. -/
def onR (c0 : Ctrl) (r : RCaps) : Ctrl × List TAct :=
  let c := { c0 with sr := updateSrCaps c0.sr r }
  if c.workflow = WorkflowState.running then
    let c1 := { c with senderStatus := SenderStatus.statusAck }
    if c1.blocked then (c1, [])
    else
      let p := senderAckOp c1
      let q := senderNextOp p.1
      ({ q.1 with senderStatus := SenderStatus.statusNext }, p.2 ++ q.2)
  else if c.workflow = WorkflowState.paused ∧ c.sender.received < c.sender.sent then
    let c1 := { c with senderStatus := SenderStatus.statusAck }
    let p := senderAckOp c1
    let q := senderNextOp p.1
    ({ q.1 with senderStatus := SenderStatus.statusNext }, p.2 ++ q.2)
  else
    feederNextOp c

/-- The part of the `runner.on('qr')` handler after the watermark
hysteresis: the `%wait` release and ack-release branches and the Feeder
fallback, on the state whose `blocked` flag was already updated. -/
def onQrFlow (c : Ctrl) (qr : Nat) : Ctrl × List TAct :=
  if c.workflow = WorkflowState.running then
      if c.senderStatus = SenderStatus.statusNext then
        if c.sender.hold ∧ c.sender.received ≥ c.sender.sent ∧ qr ≥ c.plannerBufferPoolSize then
          let p := senderUnholdOp c
          let q := senderNextOp p.1
          ({ q.1 with senderStatus := SenderStatus.statusNext }, p.2 ++ q.2)
        else (c, [])
      else if c.senderStatus = SenderStatus.statusAck then
        let p := senderAckOp c
        let q := senderNextOp p.1
        ({ q.1 with senderStatus := SenderStatus.statusNext }, p.2 ++ q.2)
      else (c, [])
    else if c.workflow = WorkflowState.paused ∧ c.senderStatus = SenderStatus.statusAck then
      let p := senderAckOp c
      let q := senderNextOp p.1
      ({ q.1 with senderStatus := SenderStatus.statusNext }, p.2 ++ q.2)
    else
      let p :=
        if c.feeder.hold ∧ c.feeder.holdReason = some (HoldReason.hdata "%wait")
            ∧ qr ≥ c.plannerBufferPoolSize then
          feederUnholdOp c
        else (c, [])
      let q := feederNextOp p.1
      (q.1, p.2 ++ q.2)

/-- The `runner.on('qr')` handler: record the queue report, apply the
watermark hysteresis to `blocked` (at or below the low-water mark: block
and return; at or above the high-water mark: unblock), then run the
flow-control tail `onQrFlow`. -/
def onQr (c0 : Ctrl) (qr : Nat) : Ctrl × List TAct :=
  let c := { c0 with stateQr := qr }
  if qr ≤ lowWaterMark then ({ c with blocked := true }, [])
  else
    onQrFlow (if qr ≥ highWaterMark then { c with blocked := false } else c) qr

/-- The `runner.on('f')` handler: `f[1]` (defaulted to 0) is the status
code; a non-zero code is broadcast as a structured error and, while
running with `ignoreErrors` unset, pauses the workflow; while idle the
Feeder is always advanced.  The human-readable message table is an external
constant; the reason carries the code. -/
def onF (c : Ctrl) (f : List Int) : Ctrl × List TAct :=
  let statusCode := f.getD 1 0
  if statusCode ≠ 0 then
    if c.workflow = WorkflowState.running then
      let p :=
        if c.ignoreErrors then (c, [])
        else workflowPauseOp c (some (HoldReason.herr (toString statusCode)))
      (p.1, TAct.emitErr statusCode :: p.2)
    else if c.workflow = WorkflowState.idle then
      let q := feederNextOp c
      (q.1, TAct.emitErr statusCode :: q.2)
    else (c, [TAct.emitErr statusCode])
  else if c.workflow = WorkflowState.idle then feederNextOp c
  else (c, [])

/-- Controller events: decoded firmware frames and the client commands that
touch the streaming pipeline. -/
inductive TEv
  | rframe (r : RCaps)
  | qrframe (q : Nat)
  | fframe (f : List Int)
  | cmdLoad (contentLines : List String)
  | cmdUnload
  | cmdStart
  | cmdStop (force : Bool)
  | cmdPause
  | cmdResume
  | cmdGcode (lines : List String)
  deriving DecidableEq, Repr

/-- One turn of the cooperative event loop: dispatch a frame or command to
its handler.  `cmdLoad` models `command('sender:load')` (append the dwell
line, load, then stop the workflow), `cmdGcode` the `gcode` command feeding
the Feeder. -/
def stepEv (c : Ctrl) (e : TEv) : Ctrl × List TAct :=
  match e with
  | TEv.rframe r => onR c r
  | TEv.qrframe q => onQr c q
  | TEv.fframe f => onF c f
  | TEv.cmdLoad contentLines =>
    let c1 := { c with sender :=
      { lines := contentLines ++ [waitDwellLine], sent := 0, received := 0,
        hold := false, holdReason := none } }
    (workflowStopOp c1, [])
  | TEv.cmdUnload =>
    let c1 := workflowStopOp c
    ({ c1 with sender :=
      { lines := [], sent := 0, received := 0, hold := false, holdReason := none } }, [])
  | TEv.cmdStart =>
    let c1 := workflowStartOp c
    senderNextOp { c1 with feeder := feederReset c1.feeder }
  | TEv.cmdStop force =>
    let c1 := workflowStopOp c
    (c1, (senderStopBytes force c1.fb).map TAct.ctrlWrite)
  | TEv.cmdPause =>
    let p := workflowPauseOp c none
    (p.1, p.2 ++ [TAct.ctrlWrite "!\n", TAct.ctrlWrite (qrPoke ++ "\n")])
  | TEv.cmdResume =>
    let p := workflowResumeOp c
    (p.1, TAct.ctrlWrite "~\n" :: p.2 ++ [TAct.ctrlWrite (qrPoke ++ "\n")])
  | TEv.cmdGcode ls =>
    let ls1 := ls.filter (fun l => !(trimChars l.data).isEmpty)
    feederNextOp { c with feeder := { c.feeder with queue := c.feeder.queue ++ ls1 } }

/-- Run a sequence of events from a state. -/
def runEvents (c : Ctrl) : List TEv → Ctrl
  | [] => c
  | e :: es => runEvents (stepEv c e).1 es

/-- A freshly created controller: idle, unblocked, nothing loaded; the
planner pool size and firmware build are representative firmware values. -/
def initCtrl : Ctrl :=
  { workflow := WorkflowState.idle, blocked := false,
    senderStatus := SenderStatus.statusNone,
    sender := { lines := [], sent := 0, received := 0, hold := false, holdReason := none },
    feeder := { queue := [], hold := false, holdReason := none },
    sr := srDefault, stateQr := 0, plannerBufferPoolSize := 28, fb := 100,
    ignoreErrors := false, alarm := false, isClose := false }


theorem workflowPauseOp_pres (c : Ctrl) (r : Option HoldReason) :
    (workflowPauseOp c r).1.sender.sent = c.sender.sent ∧
    (workflowPauseOp c r).1.sender.received = c.sender.received ∧
    (workflowPauseOp c r).1.sender.lines = c.sender.lines ∧
    (workflowPauseOp c r).1.senderStatus = c.senderStatus ∧
    (workflowPauseOp c r).1.blocked = c.blocked ∧
    (workflowPauseOp c r).1.isClose = c.isClose := by
  unfold workflowPauseOp senderHoldOp
  split <;> exact ⟨rfl, rfl, rfl, rfl, rfl, rfl⟩

theorem senderDataFilter_pres (c : Ctrl) (l : String) :
    (senderDataFilter c l).1.sender.sent = c.sender.sent ∧
    (senderDataFilter c l).1.sender.received = c.sender.received ∧
    (senderDataFilter c l).1.sender.lines = c.sender.lines ∧
    (senderDataFilter c l).1.senderStatus = c.senderStatus ∧
    (senderDataFilter c l).1.blocked = c.blocked ∧
    (senderDataFilter c l).1.isClose = c.isClose := by
  unfold senderDataFilter
  simp only [workflowPauseOp, senderHoldOp]
  repeat' split
  all_goals exact ⟨rfl, rfl, rfl, rfl, rfl, rfl⟩

theorem feederDataFilter_pres (c : Ctrl) (l : String) :
    (feederDataFilter c l).1.sender = c.sender ∧
    (feederDataFilter c l).1.senderStatus = c.senderStatus ∧
    (feederDataFilter c l).1.blocked = c.blocked ∧
    (feederDataFilter c l).1.workflow = c.workflow := by
  unfold feederDataFilter
  simp only [feederHoldOp]
  repeat' split
  all_goals exact ⟨rfl, rfl, rfl, rfl⟩

theorem feederNextOp_pres (c : Ctrl) :
    (feederNextOp c).1.sender = c.sender ∧
    (feederNextOp c).1.senderStatus = c.senderStatus ∧
    (feederNextOp c).1.blocked = c.blocked ∧
    (feederNextOp c).1.workflow = c.workflow := by
  unfold feederNextOp
  split
  · exact ⟨rfl, rfl, rfl, rfl⟩
  · split
    · exact ⟨rfl, rfl, rfl, rfl⟩
    · next l rest heq =>
      dsimp only
      have h := feederDataFilter_pres { c with feeder := { c.feeder with queue := rest } } l
      split
      · exact ⟨h.1, h.2.1, h.2.2.1, h.2.2.2⟩
      · split
        · exact ⟨h.1, h.2.1, h.2.2.1, h.2.2.2⟩
        · split
          · exact ⟨h.1, h.2.1, h.2.2.1, h.2.2.2⟩
          · exact ⟨h.1, h.2.1, h.2.2.1, h.2.2.2⟩

theorem feederDataFilter_acts (c1 : Ctrl) (l : String) (b : TAct)
    (hb : b ∈ (feederDataFilter c1 l).2.1) : ∃ r, b = TAct.feederHoldA r := by
  unfold feederDataFilter feederHoldOp at hb
  dsimp only at hb
  repeat' split at hb
  all_goals simp_all
  all_goals tauto

theorem feederNextOp_acts (c : Ctrl) (a : TAct) (ha : a ∈ (feederNextOp c).2) :
    a = TAct.feederNextA ∨ (∃ r, a = TAct.feederHoldA r) ∨ ∃ l, a = TAct.feedWrite l := by
  unfold feederNextOp at ha
  split at ha
  · simp_all
  · split at ha
    · simp_all
    · next l rest heq =>
      dsimp only at ha
      split at ha
      · rcases List.mem_cons.mp ha with h | h
        · exact Or.inl h
        · exact Or.inr (Or.inl (feederDataFilter_acts _ _ _ h))
      · split at ha
        · rcases List.mem_cons.mp ha with h | h
          · exact Or.inl h
          · exact Or.inr (Or.inl (feederDataFilter_acts _ _ _ h))
        · split at ha
          · rcases List.mem_cons.mp ha with h | h
            · exact Or.inl h
            · exact Or.inr (Or.inl (feederDataFilter_acts _ _ _ h))
          · rcases List.mem_cons.mp ha with h | h
            · exact Or.inl h
            · rcases List.mem_append.mp h with h1 | h1
              · exact Or.inr (Or.inl (feederDataFilter_acts _ _ _ h1))
              · exact Or.inr (Or.inr ⟨_, List.mem_singleton.mp h1⟩)

theorem feederNextOp_head (c : Ctrl) :
    ∃ rest, (feederNextOp c).2 = TAct.feederNextA :: rest := by
  unfold feederNextOp
  split
  · exact ⟨[], rfl⟩
  · split
    · exact ⟨[], rfl⟩
    · dsimp only
      split
      · exact ⟨_, rfl⟩
      · split
        · exact ⟨_, rfl⟩
        · split
          · exact ⟨_, rfl⟩
          · exact ⟨_, rfl⟩

theorem senderNextOp_eff (c : Ctrl) :
    (senderNextOp c).1.sender.received = c.sender.received ∧
    (senderNextOp c).1.sender.lines = c.sender.lines ∧
    (senderNextOp c).1.senderStatus = c.senderStatus ∧
    (senderNextOp c).1.blocked = c.blocked ∧
    ((senderNextOp c).1.sender.sent = c.sender.sent ∨
      (c.sender.sent ≠ c.sender.total ∧
        (senderNextOp c).1.sender.sent = c.sender.sent + 1)) := by
  unfold senderNextOp
  split
  · exact ⟨rfl, rfl, rfl, rfl, Or.inl rfl⟩
  · next hcond =>
    dsimp only
    have h := senderDataFilter_pres c (c.sender.lines.getD c.sender.sent "")
    push_neg at hcond
    exact ⟨h.2.1, h.2.2.1, h.2.2.2.1, h.2.2.2.2.1,
      Or.inr ⟨hcond.2, by rw [h.1]⟩⟩

theorem senderNextOp_held (c : Ctrl) (h : c.sender.hold = true) :
    senderNextOp c = (c, [TAct.senderNextA]) := by
  unfold senderNextOp
  rw [if_pos (Or.inl h)]

theorem senderNextOp_head (c : Ctrl) :
    ∃ rest, (senderNextOp c).2 = TAct.senderNextA :: rest := by
  unfold senderNextOp
  split
  · exact ⟨[], rfl⟩
  · exact ⟨_, rfl⟩

theorem senderNextOp_sent_exact (c : Ctrl)
    (hh : c.sender.hold = false) (ht : c.sender.sent ≠ c.sender.total) :
    (senderNextOp c).1.sender.sent = c.sender.sent + 1 := by
  unfold senderNextOp
  rw [if_neg (by simp [hh, ht])]
  dsimp only
  have h := senderDataFilter_pres c (c.sender.lines.getD c.sender.sent "")
  rw [h.1]

/-- The counter invariant of the spec together with the strengthening that
an `ack` status outside idle means a line is genuinely in flight. -/
def CounterInvAux (c : Ctrl) : Prop :=
  c.sender.received ≤ c.sender.sent ∧ c.sender.sent ≤ c.sender.total ∧
  (c.senderStatus = SenderStatus.statusAck → c.workflow ≠ WorkflowState.idle →
    c.sender.received < c.sender.sent)

theorem senderNextOp_total (c : Ctrl) :
    (senderNextOp c).1.sender.total = c.sender.total :=
  congrArg List.length (senderNextOp_eff c).2.1

theorem CounterInvAux_of_pres (x y : Ctrl) (hs : y.sender = x.sender)
    (hst : y.senderStatus = x.senderStatus) (hw : y.workflow = x.workflow)
    (h : CounterInvAux x) : CounterInvAux y := by
  unfold CounterInvAux at h ⊢
  rw [hs, hst, hw]
  exact h

theorem ackNext_inv (x : Ctrl) (hlt : x.sender.received < x.sender.sent)
    (hs : x.sender.sent ≤ x.sender.total) :
    CounterInvAux
      { (senderNextOp (senderAckOp x).1).1 with senderStatus := SenderStatus.statusNext } := by
  have h := senderNextOp_eff (senderAckOp x).1
  have ht : (senderNextOp (senderAckOp x).1).1.sender.total = x.sender.total :=
    senderNextOp_total (senderAckOp x).1
  have e1 : (senderNextOp (senderAckOp x).1).1.sender.received = x.sender.received + 1 := h.1
  refine ⟨?_, ?_, fun hst _ => nomatch hst⟩
  · show (senderNextOp (senderAckOp x).1).1.sender.received ≤
      (senderNextOp (senderAckOp x).1).1.sender.sent
    rcases h.2.2.2.2 with h5 | ⟨h5a, h5b⟩
    · have h5' : (senderNextOp (senderAckOp x).1).1.sender.sent = x.sender.sent := h5
      omega
    · have h5' : (senderNextOp (senderAckOp x).1).1.sender.sent = x.sender.sent + 1 := h5b
      omega
  · show (senderNextOp (senderAckOp x).1).1.sender.sent ≤
      (senderNextOp (senderAckOp x).1).1.sender.total
    rcases h.2.2.2.2 with h5 | ⟨h5a, h5b⟩
    · have h5' : (senderNextOp (senderAckOp x).1).1.sender.sent = x.sender.sent := h5
      omega
    · have h5a' : x.sender.sent ≠ x.sender.total := h5a
      have h5' : (senderNextOp (senderAckOp x).1).1.sender.sent = x.sender.sent + 1 := h5b
      omega

theorem unholdNext_inv (x : Ctrl) (hr : x.sender.received ≤ x.sender.sent)
    (hs : x.sender.sent ≤ x.sender.total) :
    CounterInvAux
      { (senderNextOp (senderUnholdOp x).1).1 with senderStatus := SenderStatus.statusNext } := by
  have h := senderNextOp_eff (senderUnholdOp x).1
  have ht : (senderNextOp (senderUnholdOp x).1).1.sender.total = x.sender.total :=
    senderNextOp_total (senderUnholdOp x).1
  have e1 : (senderNextOp (senderUnholdOp x).1).1.sender.received = x.sender.received := h.1
  refine ⟨?_, ?_, fun hst _ => nomatch hst⟩
  · show (senderNextOp (senderUnholdOp x).1).1.sender.received ≤
      (senderNextOp (senderUnholdOp x).1).1.sender.sent
    rcases h.2.2.2.2 with h5 | ⟨h5a, h5b⟩
    · have h5' : (senderNextOp (senderUnholdOp x).1).1.sender.sent = x.sender.sent := h5
      omega
    · have h5' : (senderNextOp (senderUnholdOp x).1).1.sender.sent = x.sender.sent + 1 := h5b
      omega
  · show (senderNextOp (senderUnholdOp x).1).1.sender.sent ≤
      (senderNextOp (senderUnholdOp x).1).1.sender.total
    rcases h.2.2.2.2 with h5 | ⟨h5a, h5b⟩
    · have h5' : (senderNextOp (senderUnholdOp x).1).1.sender.sent = x.sender.sent := h5
      omega
    · have h5a' : x.sender.sent ≠ x.sender.total := h5a
      have h5' : (senderNextOp (senderUnholdOp x).1).1.sender.sent = x.sender.sent + 1 := h5b
      omega

/-- Events are well-formed in a state when an `r` frame that arrives while
the workflow runs acknowledges a line actually in flight. -/
def EvOk (c : Ctrl) : TEv → Prop
  | TEv.rframe _ =>
    c.workflow = WorkflowState.running → c.sender.received < c.sender.sent
  | _ => True

theorem onQrFlow_inv (c : Ctrl) (q : Nat) (hI : CounterInvAux c) :
    CounterInvAux (onQrFlow c q).1 := by
  obtain ⟨h1, h2, h3⟩ := hI
  unfold onQrFlow
  dsimp only
  split
  next hw =>
    split
    next hst =>
      split
      next hcnd => exact unholdNext_inv c h1 h2
      next hcnd => exact ⟨h1, h2, h3⟩
    next hst =>
      split
      next hack => exact ackNext_inv c (h3 hack (by rw [hw]; decide)) h2
      next hack => exact ⟨h1, h2, h3⟩
  next hw =>
    split
    next hps => exact ackNext_inv c (h3 hps.2 (by rw [hps.1]; decide)) h2
    next hps =>
      dsimp only
      split
      next hfh =>
        have hp := feederNextOp_pres (feederUnholdOp c).1
        exact CounterInvAux_of_pres c _ hp.1 hp.2.1 hp.2.2.2 ⟨h1, h2, h3⟩
      next hfh =>
        have hp := feederNextOp_pres c
        exact CounterInvAux_of_pres c _ hp.1 hp.2.1 hp.2.2.2 ⟨h1, h2, h3⟩

theorem contNext_inv (x : Ctrl) (h1 : x.sender.received ≤ x.sender.sent)
    (h2 : x.sender.sent ≤ x.sender.total)
    (h3 : x.senderStatus = SenderStatus.statusAck → x.sender.received < x.sender.sent) :
    CounterInvAux (senderNextOp x).1 := by
  have h := senderNextOp_eff x
  have ht := senderNextOp_total x
  refine ⟨?_, ?_, ?_⟩
  · rcases h.2.2.2.2 with h5 | ⟨h5a, h5b⟩
    · have e1 := h.1
      omega
    · have e1 := h.1
      omega
  · rcases h.2.2.2.2 with h5 | ⟨h5a, h5b⟩
    · omega
    · omega
  · intro hst _
    have hst2 : x.senderStatus = SenderStatus.statusAck := h.2.2.1.symm.trans hst
    have hlt := h3 hst2
    have e1 := h.1
    rcases h.2.2.2.2 with h5 | ⟨h5a, h5b⟩
    · omega
    · omega

theorem startNext_inv (x : Ctrl) (hx0 : x.sender.received = 0) (hx1 : x.sender.sent = 0)
    (hxs : x.senderStatus ≠ SenderStatus.statusAck) :
    CounterInvAux (senderNextOp x).1 := by
  have h := senderNextOp_eff x
  have ht := senderNextOp_total x
  refine ⟨?_, ?_, ?_⟩
  · have e1 := h.1
    rcases h.2.2.2.2 with h5 | ⟨h5a, h5b⟩
    · omega
    · omega
  · rcases h.2.2.2.2 with h5 | ⟨h5a, h5b⟩
    · omega
    · omega
  · intro hst _
    exact absurd (h.2.2.1.symm.trans hst) hxs

theorem stepEv_preserves (c : Ctrl) (e : TEv) (hI : CounterInvAux c) (hE : EvOk c e) :
    CounterInvAux (stepEv c e).1 := by
  obtain ⟨h1, h2, h3⟩ := hI
  cases e with
  | rframe r =>
    unfold stepEv onR
    dsimp only
    split
    next hw =>
      split
      next hb => exact ⟨h1, h2, fun _ _ => hE hw⟩
      next hb => exact ackNext_inv _ (hE hw) h2
    next hw =>
      split
      next hps => exact ackNext_inv _ hps.2 h2
      next hps =>
        have hp := feederNextOp_pres { c with sr := updateSrCaps c.sr r }
        exact CounterInvAux_of_pres c _ hp.1 hp.2.1 hp.2.2.2 ⟨h1, h2, h3⟩
  | qrframe q =>
    unfold stepEv onQr
    dsimp only
    split
    next hlow => exact ⟨h1, h2, h3⟩
    next hlow =>
      split
      · exact onQrFlow_inv _ q ⟨h1, h2, h3⟩
      · exact onQrFlow_inv _ q ⟨h1, h2, h3⟩
  | fframe f =>
    unfold stepEv onF
    dsimp only
    split
    next hnz =>
      split
      next hw =>
        dsimp only
        split
        next hig => exact ⟨h1, h2, h3⟩
        next hig =>
          have hp := workflowPauseOp_pres c (some (HoldReason.herr (toString (f.getD 1 0))))
          refine ⟨by rw [hp.2.1, hp.1]; exact h1, ?_, ?_⟩
          · have ht : (workflowPauseOp c _).1.sender.total = c.sender.total :=
              congrArg List.length hp.2.2.1
            rw [hp.1, ht]
            exact h2
          · intro hst _
            rw [hp.2.1, hp.1]
            exact h3 (hp.2.2.2.1 ▸ hst) (by rw [hw]; decide)
      next hw =>
        split
        next hid =>
          have hp := feederNextOp_pres c
          exact CounterInvAux_of_pres c _ hp.1 hp.2.1 hp.2.2.2 ⟨h1, h2, h3⟩
        next hid => exact ⟨h1, h2, h3⟩
    next hnz =>
      split
      next hid =>
        have hp := feederNextOp_pres c
        exact CounterInvAux_of_pres c _ hp.1 hp.2.1 hp.2.2.2 ⟨h1, h2, h3⟩
      next hid => exact ⟨h1, h2, h3⟩
  | cmdLoad ls =>
    unfold stepEv workflowStopOp
    dsimp only
    split
    next hid => exact ⟨Nat.le_refl 0, Nat.zero_le _, fun _ hw => absurd hid hw⟩
    next hid => exact ⟨Nat.le_refl 0, Nat.zero_le _, fun hst => nomatch hst⟩
  | cmdUnload =>
    unfold stepEv workflowStopOp
    dsimp only
    split
    next hid => exact ⟨Nat.le_refl 0, Nat.le_refl 0, fun _ hw => absurd hid hw⟩
    next hid => exact ⟨Nat.le_refl 0, Nat.le_refl 0, fun hst => nomatch hst⟩
  | cmdStart =>
    unfold stepEv workflowStartOp
    dsimp only
    split
    next hrun =>
      refine contNext_inv _ h1 h2 ?_
      exact fun hst => h3 hst (by rw [hrun]; decide)
    next hrun =>
      refine startNext_inv _ rfl rfl ?_
      exact fun hh => nomatch hh
  | cmdStop force =>
    unfold stepEv workflowStopOp
    dsimp only
    split
    next hid => exact ⟨h1, h2, h3⟩
    next hid => exact ⟨Nat.le_refl 0, Nat.zero_le _, fun hst => nomatch hst⟩
  | cmdPause =>
    unfold stepEv
    dsimp only
    unfold workflowPauseOp
    split
    next hw =>
      dsimp only [senderHoldOp]
      exact ⟨h1, h2, fun hst _ => h3 hst (by rw [hw]; decide)⟩
    next hw => exact ⟨h1, h2, h3⟩
  | cmdResume =>
    unfold stepEv workflowResumeOp
    dsimp only
    split
    next hw =>
      refine contNext_inv _ h1 h2 ?_
      exact fun hst => h3 hst (by rw [hw]; decide)
    next hw => exact ⟨h1, h2, h3⟩
  | cmdGcode ls =>
    unfold stepEv
    dsimp only
    have hp := feederNextOp_pres
      { c with feeder := { c.feeder with queue := c.feeder.queue ++ ls.filter (fun l => !(trimChars l.data).isEmpty) } }
    exact CounterInvAux_of_pres c _ hp.1 hp.2.1 hp.2.2.2 ⟨h1, h2, h3⟩

/-- Boolean form of the spec's counter invariant `received ≤ sent ≤ total`. -/
def counterInvB (c : Ctrl) : Bool :=
  decide (c.sender.received ≤ c.sender.sent) && decide (c.sender.sent ≤ c.sender.total)

/-- Boolean form of `CounterInvAux`. -/
def counterInvAuxB (c : Ctrl) : Bool :=
  counterInvB c &&
    (!(c.senderStatus == SenderStatus.statusAck) || (c.workflow == WorkflowState.idle) ||
      decide (c.sender.received < c.sender.sent))

/-- Boolean form of `EvOk`. -/
def evOkB (c : Ctrl) : TEv → Bool
  | TEv.rframe _ =>
    !(c.workflow == WorkflowState.running) || decide (c.sender.received < c.sender.sent)
  | _ => true

/-- Boolean form of trace well-formedness: every event is well-formed in
the state it is processed in. -/
def okTraceB (c : Ctrl) : List TEv → Bool
  | [] => true
  | e :: es => evOkB c e && okTraceB (stepEv c e).1 es

theorem counterInvAuxB_iff (c : Ctrl) : counterInvAuxB c = true ↔ CounterInvAux c := by
  unfold counterInvAuxB counterInvB CounterInvAux
  simp only [Bool.and_eq_true, Bool.or_eq_true, Bool.not_eq_true', beq_iff_eq,
    beq_eq_false_iff_ne, decide_eq_true_eq, ne_eq]
  constructor
  · rintro ⟨⟨ha, hb⟩, hc⟩
    refine ⟨ha, hb, fun hst hwf => ?_⟩
    rcases hc with (hc | hc) | hc
    · exact absurd hst hc
    · exact absurd hc hwf
    · exact hc
  · rintro ⟨ha, hb, hc⟩
    refine ⟨⟨ha, hb⟩, ?_⟩
    by_cases hst : c.senderStatus = SenderStatus.statusAck
    · by_cases hwf : c.workflow = WorkflowState.idle
      · exact Or.inl (Or.inr hwf)
      · exact Or.inr (hc hst hwf)
    · exact Or.inl (Or.inl hst)

theorem evOkB_sound (c : Ctrl) (e : TEv) (h : evOkB c e = true) : EvOk c e := by
  cases e
  case rframe r =>
    intro hw
    unfold evOkB at h
    rw [hw] at h
    simpa using h
  all_goals trivial

theorem runEvents_preserves (evs : List TEv) (c : Ctrl) (hI : CounterInvAux c)
    (hok : okTraceB c evs = true) : CounterInvAux (runEvents c evs) := by
  induction evs generalizing c with
  | nil => exact hI
  | cons e es ih =>
    simp only [okTraceB, Bool.and_eq_true] at hok
    exact ih (stepEv c e).1 (stepEv_preserves c e hI (evOkB_sound c e hok.1)) hok.2

theorem senderNextOp_noop_total (c : Ctrl) (h : c.sender.sent = c.sender.total) :
    senderNextOp c = (c, [TAct.senderNextA]) := by
  unfold senderNextOp
  rw [if_pos (Or.inr h)]

/-- C3 (amended): for every event sequence in which each `r` frame that is
processed while the workflow runs acknowledges a line actually in flight
(`received < sent`), the Sender counters satisfy
`received ≤ sent ≤ total` after every event. -/
theorem c3_counters_invariant (c : Ctrl) (evs : List TEv)
    (hI : counterInvAuxB c = true) (hok : okTraceB c evs = true) :
    (runEvents c evs).sender.received ≤ (runEvents c evs).sender.sent ∧
    (runEvents c evs).sender.sent ≤ (runEvents c evs).sender.total := by
  have h := runEvents_preserves evs c ((counterInvAuxB_iff c).mp hI) hok
  exact ⟨h.1, h.2.1⟩

/-- C3 counterexample: starting the workflow with no program loaded and
then processing a single `r` frame drives `received` to 1 while `sent`
stays 0, violating `received ≤ sent ≤ total`. -/
theorem c3_counters_counterexample :
    (runEvents initCtrl [TEv.cmdStart, TEv.rframe rCapsNone]).sender.received = 1 ∧
    (runEvents initCtrl [TEv.cmdStart, TEv.rframe rCapsNone]).sender.sent = 0 ∧
    ¬((runEvents initCtrl [TEv.cmdStart, TEv.rframe rCapsNone]).sender.received ≤
      (runEvents initCtrl [TEv.cmdStart, TEv.rframe rCapsNone]).sender.sent) := by
  decide

theorem c3_counters_invariant_witness :
    counterInvAuxB initCtrl = true ∧
    okTraceB initCtrl
      [TEv.cmdLoad ["G0", "G1"], TEv.cmdStart, TEv.rframe rCapsNone] = true ∧
    ((runEvents initCtrl
        [TEv.cmdLoad ["G0", "G1"], TEv.cmdStart, TEv.rframe rCapsNone]).sender.received ≤
      (runEvents initCtrl
        [TEv.cmdLoad ["G0", "G1"], TEv.cmdStart, TEv.rframe rCapsNone]).sender.sent) :=
  ⟨by decide, by decide,
   (c3_counters_invariant initCtrl
     [TEv.cmdLoad ["G0", "G1"], TEv.cmdStart, TEv.rframe rCapsNone]
     (by decide) (by decide)).1⟩

/-- C1: an `r` frame processed while the workflow is running and `blocked`
is false performs `sender.ack()` then `sender.next()` and leaves
`senderStatus = next`; `received` always advances by one and, when the
Sender is not held and lines remain, `sent` advances by one. -/
theorem c1_ack_gate (c : Ctrl) (r : RCaps)
    (hw : c.workflow = WorkflowState.running) (hb : c.blocked = false) :
    (stepEv c (TEv.rframe r)).1.senderStatus = SenderStatus.statusNext ∧
    (stepEv c (TEv.rframe r)).1.sender.received = c.sender.received + 1 ∧
    (∃ rest, (stepEv c (TEv.rframe r)).2 =
      TAct.senderAckA :: TAct.senderNextA :: rest) ∧
    (c.sender.hold = false → c.sender.sent ≠ c.sender.total →
      (stepEv c (TEv.rframe r)).1.sender.sent = c.sender.sent + 1) := by
  unfold stepEv onR
  dsimp only
  rw [if_pos hw]
  split
  next hbt =>
    rw [hb] at hbt
    simp at hbt
  next hbf =>
    refine ⟨rfl, ?_, ?_, ?_⟩
    · exact (senderNextOp_eff _).1
    · obtain ⟨rest, hrest⟩ := senderNextOp_head
        (senderAckOp { { c with sr := updateSrCaps c.sr r } with
          senderStatus := SenderStatus.statusAck }).1
      exact ⟨rest, congrArg (List.cons TAct.senderAckA) hrest⟩
    · intro hh hnt
      exact senderNextOp_sent_exact _ hh hnt

/-- A running controller mid-program: 7 lines loaded, 5 sent, 4 acknowledged. -/
def c1State : Ctrl :=
  { workflow := WorkflowState.running, blocked := false,
    senderStatus := SenderStatus.statusNext,
    sender := { lines := ["G0", "G1", "G2", "G3", "G4", "G5", "G6"],
                sent := 5, received := 4, hold := false, holdReason := none },
    feeder := { queue := [], hold := false, holdReason := none },
    sr := srDefault, stateQr := 30, plannerBufferPoolSize := 28, fb := 100,
    ignoreErrors := false, alarm := false, isClose := false }

theorem c1_ack_gate_witness :
    (stepEv c1State (TEv.rframe rCapsNone)).1.senderStatus = SenderStatus.statusNext ∧
    (stepEv c1State (TEv.rframe rCapsNone)).1.sender.received = 5 ∧
    (stepEv c1State (TEv.rframe rCapsNone)).1.sender.sent = 6 := by
  have h := c1_ack_gate c1State rCapsNone rfl rfl
  exact ⟨h.1, h.2.1, h.2.2.2 rfl (by decide)⟩

/-- C2 (amended): while `blocked = true`, processing an `r` frame never
transmits a Sender line (provided the Sender is held whenever the workflow
is paused, which every pause transition establishes); `qr` frames are not
covered: see the counterexample. -/
theorem ackHeldNext_facts (x : Ctrl) (hh : x.sender.hold = true) :
    ({ (senderNextOp (senderAckOp x).1).1 with
        senderStatus := SenderStatus.statusNext }).sender.sent = x.sender.sent ∧
    ∀ l, TAct.sendWrite l ∉ (senderAckOp x).2 ++ (senderNextOp (senderAckOp x).1).2 := by
  rw [senderNextOp_held (senderAckOp x).1 hh]
  refine ⟨rfl, fun l => ?_⟩
  show TAct.sendWrite l ∉ [TAct.senderAckA, TAct.senderNextA]
  simp

theorem c2_blocked_r_no_send (c : Ctrl) (r : RCaps) (hb : c.blocked = true)
    (hp : c.workflow = WorkflowState.paused → c.sender.hold = true) :
    (stepEv c (TEv.rframe r)).1.sender.sent = c.sender.sent ∧
    ∀ l, TAct.sendWrite l ∉ (stepEv c (TEv.rframe r)).2 := by
  unfold stepEv onR
  dsimp only
  split
  next hw =>
    exact ⟨rfl, by intro l; simp⟩
  next hw =>
    split
    next hps =>
      exact ⟨(ackHeldNext_facts { { c with sr := updateSrCaps c.sr r } with
          senderStatus := SenderStatus.statusAck } (hp hps.1)).1,
        fun l => (ackHeldNext_facts { { c with sr := updateSrCaps c.sr r } with
          senderStatus := SenderStatus.statusAck } (hp hps.1)).2 l⟩
    next hps =>
      refine ⟨?_, ?_⟩
      · exact congrArg SenderState.sent
          (feederNextOp_pres { c with sr := updateSrCaps c.sr r }).1
      · intro l hmem
        rcases feederNextOp_acts _ _ hmem with h | ⟨rr, h⟩ | ⟨l2, h⟩
        · exact nomatch h
        · exact nomatch h
        · exact nomatch h

/-- The trace of the C2 counterexample: load a three-line program, start
it (transmitting line 0), fall below the low-water mark, receive the
acknowledgement while blocked. -/
def c2Trace : List TEv :=
  [TEv.cmdLoad ["G0", "G1", "G2"], TEv.cmdStart, TEv.qrframe 4, TEv.rframe rCapsNone]

/-- C2 counterexample: from the blocked state reached by `c2Trace`, a `qr`
frame carrying 12 — strictly between the watermarks, so `blocked` stays
true — releases the pending ack and transmits a new Sender line. -/
theorem c2_blocked_counterexample :
    (runEvents initCtrl c2Trace).blocked = true ∧
    (stepEv (runEvents initCtrl c2Trace) (TEv.qrframe 12)).1.blocked = true ∧
    (stepEv (runEvents initCtrl c2Trace) (TEv.qrframe 12)).1.sender.sent =
      (runEvents initCtrl c2Trace).sender.sent + 1 ∧
    TAct.sendWrite "N1G1\n" ∈ (stepEv (runEvents initCtrl c2Trace) (TEv.qrframe 12)).2 := by
  decide

/-- A blocked, paused controller with one line in flight. -/
def c2State : Ctrl :=
  { workflow := WorkflowState.paused, blocked := true,
    senderStatus := SenderStatus.statusAck,
    sender := { lines := ["G0", "G1", "G2"],
                sent := 1, received := 0, hold := true,
                holdReason := none },
    feeder := { queue := [], hold := false, holdReason := none },
    sr := srDefault, stateQr := 4, plannerBufferPoolSize := 28, fb := 100,
    ignoreErrors := false, alarm := false, isClose := false }

theorem c2_blocked_r_no_send_witness :
    (stepEv c2State (TEv.rframe rCapsNone)).1.sender.sent = 1 ∧
    TAct.sendWrite "N1G1\n" ∉ (stepEv c2State (TEv.rframe rCapsNone)).2 :=
  ⟨(c2_blocked_r_no_send c2State rCapsNone rfl (fun _ => rfl)).1,
   (c2_blocked_r_no_send c2State rCapsNone rfl (fun _ => rfl)).2 "N1G1\n"⟩

theorem unholdNext_received (x : Ctrl) :
    (senderNextOp (senderUnholdOp x).1).1.sender.received = x.sender.received :=
  (senderNextOp_eff (senderUnholdOp x).1).1

theorem unholdNext_total (x : Ctrl) :
    (senderNextOp (senderUnholdOp x).1).1.sender.total = x.sender.total :=
  senderNextOp_total (senderUnholdOp x).1

theorem unholdNext_sent_end (x : Ctrl) (ht : x.sender.sent = x.sender.total) :
    (senderNextOp (senderUnholdOp x).1).1.sender.sent = x.sender.sent :=
  congrArg (fun p => p.1.sender.sent) (senderNextOp_noop_total (senderUnholdOp x).1 ht)

theorem unholdNext_sent_mid (x : Ctrl) (ht : x.sender.sent ≠ x.sender.total) :
    (senderNextOp (senderUnholdOp x).1).1.sender.sent = x.sender.sent + 1 :=
  senderNextOp_sent_exact (senderUnholdOp x).1 rfl ht

/-- C5 (amended): `sender:pause` then `sender:resume` leaves `received`
and `total` unchanged; `sent` is also unchanged exactly when resume's
`sender.next()` is a no-op (workflow idle, or end of program) — otherwise
the resume transmits one more line, incrementing `sent`. -/
theorem c5_pause_resume (c : Ctrl) :
    (runEvents c [TEv.cmdPause, TEv.cmdResume]).sender.received = c.sender.received ∧
    (runEvents c [TEv.cmdPause, TEv.cmdResume]).sender.total = c.sender.total ∧
    (runEvents c [TEv.cmdPause, TEv.cmdResume]).sender.sent =
      (if c.workflow ≠ WorkflowState.idle ∧ c.sender.sent ≠ c.sender.total
       then c.sender.sent + 1 else c.sender.sent) := by
  simp only [runEvents]
  unfold stepEv workflowPauseOp workflowResumeOp
  dsimp only
  split
  next hw =>
    dsimp only [senderHoldOp]
    split
    next hwp =>
      refine ⟨unholdNext_received _, unholdNext_total _, ?_⟩
      by_cases ht : c.sender.sent = c.sender.total
      · rw [if_neg (by simp [ht])]
        exact unholdNext_sent_end _ ht
      · rw [if_pos ⟨by rw [hw]; exact (fun hh => nomatch hh), ht⟩]
        exact unholdNext_sent_mid _ ht
    next hwp => exact absurd rfl hwp
  next hw =>
    split
    next hwp =>
      refine ⟨unholdNext_received _, unholdNext_total _, ?_⟩
      by_cases ht : c.sender.sent = c.sender.total
      · rw [if_neg (by simp [ht])]
        exact unholdNext_sent_end _ ht
      · rw [if_pos ⟨by rw [hwp]; exact (fun hh => nomatch hh), ht⟩]
        exact unholdNext_sent_mid _ ht
    next hwp =>
      have hidle : c.workflow = WorkflowState.idle := by
        cases hcv : c.workflow
        · rfl
        · exact absurd hcv hw
        · exact absurd hcv hwp
      rw [if_neg (by simp [hidle])]
      exact ⟨rfl, rfl, rfl⟩

/-- C5 counterexample: starting a three-line program sends line 0
(`sent = 1`); `pause` followed by `resume`, with no frames in between,
raises `sent` to 2, so the pair is not a no-op on the counters. -/
theorem c5_pause_resume_counterexample :
    (runEvents initCtrl [TEv.cmdLoad ["G0", "G1", "G2"], TEv.cmdStart]).sender.sent = 1 ∧
    (runEvents initCtrl [TEv.cmdLoad ["G0", "G1", "G2"], TEv.cmdStart,
      TEv.cmdPause, TEv.cmdResume]).sender.sent = 2 := by
  decide

theorem senderDataFilter_wait (c : Ctrl) (line : String)
    (hline : tgStrip line = "%wait") :
    senderDataFilter c line =
      ((senderHoldOp c (some (HoldReason.hdata "%wait"))).1,
       [TAct.senderHoldA (some (HoldReason.hdata "%wait"))], "G4 P0.5") := by
  unfold senderDataFilter senderHoldOp
  rw [hline]
  rfl

theorem feederDataFilter_wait (c : Ctrl) (line : String)
    (hline : tgStrip line = "%wait") :
    feederDataFilter c line =
      ((feederHoldOp c (some (HoldReason.hdata "%wait"))).1,
       [TAct.feederHoldA (some (HoldReason.hdata "%wait"))], "G4 P0.5") := by
  unfold feederDataFilter feederHoldOp
  rw [hline]
  rfl

theorem onQrFlow_release (c : Ctrl) (q : Nat)
    (hw : c.workflow = WorkflowState.running)
    (hst : c.senderStatus = SenderStatus.statusNext)
    (hh : c.sender.hold = true)
    (hr : c.sender.received ≥ c.sender.sent)
    (hq : q ≥ c.plannerBufferPoolSize) :
    ∃ rest, (onQrFlow c q).2 = TAct.senderUnholdA :: TAct.senderNextA :: rest := by
  unfold onQrFlow
  dsimp only
  rw [if_pos hw, if_pos hst, if_pos ⟨hh, hr, hq⟩]
  obtain ⟨rest, hrest⟩ := senderNextOp_head (senderUnholdOp c).1
  exact ⟨rest, congrArg (List.cons TAct.senderUnholdA) hrest⟩

/-- C4 (amended): a line whose comment-stripped, trimmed form is the
literal `%wait` makes the Sender (and likewise the Feeder) `dataFilter`
hold its pipeline with reason `%wait` and substitute the dwell `G4 P0.5`;
and on a `qr` frame with `q ≥ plannerBufferPoolSize` that is also strictly
above the low-water mark, while running with `senderStatus = next`, the
Sender held and `received ≥ sent`, the hold is released: `sender.unhold()`
then `sender.next()`. -/
theorem c4_wait_dwell (c : Ctrl) (line : String) (q : Nat)
    (hline : tgStrip line = "%wait")
    (hw : c.workflow = WorkflowState.running)
    (hst : c.senderStatus = SenderStatus.statusNext)
    (hh : c.sender.hold = true)
    (hr : c.sender.received ≥ c.sender.sent)
    (hq : q ≥ c.plannerBufferPoolSize)
    (hlow : lowWaterMark < q) :
    (senderDataFilter c line).1.sender.hold = true ∧
    (senderDataFilter c line).1.sender.holdReason = some (HoldReason.hdata "%wait") ∧
    (senderDataFilter c line).2.2 = "G4 P0.5" ∧
    (feederDataFilter c line).1.feeder.hold = true ∧
    (feederDataFilter c line).1.feeder.holdReason = some (HoldReason.hdata "%wait") ∧
    (feederDataFilter c line).2.2 = "G4 P0.5" ∧
    ∃ rest, (stepEv c (TEv.qrframe q)).2 =
      TAct.senderUnholdA :: TAct.senderNextA :: rest := by
  have hs := senderDataFilter_wait c line hline
  have hf := feederDataFilter_wait c line hline
  refine ⟨by rw [hs]; rfl, by rw [hs]; rfl, by rw [hs], by rw [hf]; rfl, by rw [hf]; rfl, by rw [hf], ?_⟩
  unfold stepEv onQr
  dsimp only
  rw [if_neg (by omega)]
  split
  next hhi =>
    exact onQrFlow_release _ q hw hst hh hr hq
  next hhi =>
    exact onQrFlow_release _ q hw hst hh hr hq

/-- A running controller holding at a `%wait` dwell whose firmware
reports a small planner pool. -/
def c4State : Ctrl :=
  { workflow := WorkflowState.running, blocked := false,
    senderStatus := SenderStatus.statusNext,
    sender := { lines := ["%wait ; Wait for the planner to empty", "G1"],
                sent := 1, received := 1, hold := true,
                holdReason := some (HoldReason.hdata "%wait") },
    feeder := { queue := [], hold := false, holdReason := none },
    sr := srDefault, stateQr := 10, plannerBufferPoolSize := 5, fb := 100,
    ignoreErrors := false, alarm := false, isClose := false }

/-- C4 counterexample: every release condition named by the claim holds
(running, `senderStatus = next`, Sender held, `received ≥ sent`, and
`q = 6 ≥ plannerBufferPoolSize = 5`), yet because `q` is at or below the
low-water mark the handler only sets `blocked` and returns: the Sender
stays held and no unhold is issued. -/
theorem c4_wait_dwell_counterexample :
    c4State.workflow = WorkflowState.running ∧
    c4State.senderStatus = SenderStatus.statusNext ∧
    c4State.sender.hold = true ∧
    c4State.sender.received ≥ c4State.sender.sent ∧
    6 ≥ c4State.plannerBufferPoolSize ∧
    (stepEv c4State (TEv.qrframe 6)).1.sender.hold = true ∧
    TAct.senderUnholdA ∉ (stepEv c4State (TEv.qrframe 6)).2 := by
  decide

theorem c4_wait_dwell_witness :
    tgStrip "%wait ; Wait for the planner to empty" = "%wait" ∧
    (senderDataFilter c4State "%wait ; Wait for the planner to empty").2.2 = "G4 P0.5" ∧
    (senderDataFilter c4State "%wait ; Wait for the planner to empty").1.sender.hold = true ∧
    ∃ rest, (stepEv c4State (TEv.qrframe 28)).2 =
      TAct.senderUnholdA :: TAct.senderNextA :: rest := by
  have h := c4_wait_dwell c4State "%wait ; Wait for the planner to empty" 28
    (by decide) rfl rfl rfl (by decide) (by decide) (by decide)
  exact ⟨by decide, h.2.2.1, h.1, h.2.2.2.2.2.2⟩

/-- C6: the force variant of `sender:stop` selects the firmware dialect by
the numeric build — `^d` alone for builds at or above 101, `^d` then `M30`
for builds in [100, 101), and `!`, `%`, `M30` for older builds — and every
variant (forced or not) ends with the `{"qr":""}` queue-report poke.  Each
payload is newline-terminated by `writeln` (see `senderStopBytes`). -/
theorem c6_force_stop (fb : Rat) :
    (101 ≤ fb → senderStopPayloads true fb = ["\x04", qrPoke]) ∧
    (100 ≤ fb → fb < 101 → senderStopPayloads true fb = ["\x04", "M30", qrPoke]) ∧
    (fb < 100 → senderStopPayloads true fb = ["!", "%", "M30", qrPoke]) ∧
    (∀ force, (senderStopPayloads force fb).getLast? = some qrPoke) ∧
    (∀ force, senderStopBytes force fb =
      (senderStopPayloads force fb).map (fun s => s ++ "\n")) := by
  refine ⟨?_, ?_, ?_, ?_, fun _ => rfl⟩
  · intro h
    unfold senderStopPayloads
    rw [if_pos rfl, if_pos h]
    rfl
  · intro h1 h2
    unfold senderStopPayloads
    rw [if_pos rfl, if_neg (not_le.mpr h2), if_pos h1]
    rfl
  · intro h
    unfold senderStopPayloads
    rw [if_pos rfl, if_neg (not_le.mpr (lt_trans h (by norm_num))),
      if_neg (not_le.mpr h)]
    rfl
  · intro force
    cases force
    · rfl
    · unfold senderStopPayloads
      rw [if_pos rfl]
      split
      · rfl
      · split
        · rfl
        · rfl

theorem c6_force_stop_witness :
    senderStopPayloads true 102 = ["\x04", qrPoke] ∧
    senderStopPayloads true 100 = ["\x04", "M30", qrPoke] ∧
    senderStopPayloads true 99 = ["!", "%", "M30", qrPoke] ∧
    (senderStopPayloads false 99).getLast? = some qrPoke :=
  ⟨(c6_force_stop 102).1 (by decide),
   (c6_force_stop 100).2.1 (by decide) (by decide),
   (c6_force_stop 99).2.2.1 (by decide),
   (c6_force_stop 99).2.2.2.1 false⟩

theorem overrideFeedValue_clamp (cur v : Rat) (hv : v ≠ 0) :
    overrideFeedValue cur v = max 0.05 (min 2 ((cur * 100 + v) / 100)) := by
  unfold overrideFeedValue
  rw [if_neg hv]
  split
  next h1 =>
    have hx : (2 : Rat) < (cur * 100 + v) / 100 := by
      rw [lt_div_iff₀ (by norm_num : (0 : Rat) < 100)]
      linarith
    rw [min_eq_left hx.le, max_eq_right (by norm_num : (0.05 : Rat) ≤ 2)]
  next h1 =>
    push_neg at h1
    have hx2 : (cur * 100 + v) / 100 ≤ 2 := by
      rw [div_le_iff₀ (by norm_num : (0 : Rat) < 100)]
      linarith
    split
    next h2 =>
      have hx05 : (cur * 100 + v) / 100 < 0.05 := by
        rw [div_lt_iff₀ (by norm_num : (0 : Rat) < 100)]
        norm_num
        linarith
      rw [min_eq_right hx2, max_eq_left hx05.le]
    next h2 =>
      push_neg at h2
      have hx05 : (0.05 : Rat) ≤ (cur * 100 + v) / 100 := by
        rw [le_div_iff₀ (by norm_num : (0 : Rat) < 100)]
        norm_num
        linarith
      rw [min_eq_right hx2, max_eq_right hx05]

theorem overrideSpindleValue_eq (sso v : Rat) :
    overrideSpindleValue sso v = overrideFeedValue sso v := rfl

/-- C7: `override:feed` and `override:spindle` reset the override fraction
to 1 on a zero delta, and otherwise emit
`clamp((cur·100 + Δ)/100, 0.05, 2.0)` — saturating at 2.0 above 200% and
at 0.05 below 5%. -/
theorem c7_override_clamp (mfo sso v : Rat) :
    overrideFeedValue mfo 0 = 1 ∧ overrideSpindleValue sso 0 = 1 ∧
    (v ≠ 0 →
      overrideFeedValue mfo v = max 0.05 (min 2 ((mfo * 100 + v) / 100)) ∧
      overrideSpindleValue sso v = max 0.05 (min 2 ((sso * 100 + v) / 100))) := by
  refine ⟨?_, ?_, fun hv => ⟨overrideFeedValue_clamp mfo v hv, ?_⟩⟩
  · unfold overrideFeedValue
    rw [if_pos rfl]
  · unfold overrideSpindleValue
    rw [if_pos rfl]
  · rw [overrideSpindleValue_eq]
    exact overrideFeedValue_clamp sso v hv

theorem c7_override_clamp_witness :
    overrideFeedValue 1 0 = 1 ∧
    overrideFeedValue 1 50 = max 0.05 (min 2 ((1 * 100 + 50) / 100)) ∧
    overrideSpindleValue 1 50 = max 0.05 (min 2 ((1 * 100 + 50) / 100)) :=
  ⟨(c7_override_clamp 1 1 50).1,
   ((c7_override_clamp 1 1 50).2.2 (by decide)).1,
   ((c7_override_clamp 1 1 50).2.2 (by decide)).2⟩

theorem srCmdKeys_mem (m : SrMask) (k : String) :
    k ∈ srCmdKeys m ↔ (k, true) ∈ srAssoc m := by
  unfold srCmdKeys
  simp only [List.mem_map, List.mem_filter]
  constructor
  · rintro ⟨⟨a, b⟩, ⟨hm, hb⟩, rfl⟩
    simp only [decide_eq_true_eq] at hb
    cases b
    · exact absurd hb (by simp)
    · exact hm
  · intro hm
    exact ⟨(k, true), ⟨hm, by simp⟩, rfl⟩

/-- C8: a probed capability field answered with `null` clears its
status-report mask bit, and the field-selection command computed by
`initController` lists exactly the keys whose bit is still set. -/
theorem c8_capability_mask (m : SrMask) (r : RCaps) :
    (r.speNull = true → (updateSrCaps m r).spe = false ∧
      "spe" ∉ srCmdKeys (updateSrCaps m r)) ∧
    (r.spdNull = true → (updateSrCaps m r).spd = false ∧
      "spd" ∉ srCmdKeys (updateSrCaps m r)) ∧
    (r.spcNull = true → (updateSrCaps m r).spc = false ∧
      "spc" ∉ srCmdKeys (updateSrCaps m r)) ∧
    (r.spsNull = true → (updateSrCaps m r).sps = false ∧
      "sps" ∉ srCmdKeys (updateSrCaps m r)) ∧
    (r.comNull = true → (updateSrCaps m r).com = false ∧
      "com" ∉ srCmdKeys (updateSrCaps m r)) ∧
    (r.cofNull = true → (updateSrCaps m r).cof = false ∧
      "cof" ∉ srCmdKeys (updateSrCaps m r)) ∧
    (∀ k, k ∈ srCmdKeys m ↔ (k, true) ∈ srAssoc m) := by
  refine ⟨?_, ?_, ?_, ?_, ?_, ?_, fun k => srCmdKeys_mem m k⟩
  all_goals intro h
  all_goals constructor
  · simp [updateSrCaps, h]
  · intro hmem
    rw [srCmdKeys_mem] at hmem
    simp [srAssoc, updateSrCaps, h] at hmem
  · simp [updateSrCaps, h]
  · intro hmem
    rw [srCmdKeys_mem] at hmem
    simp [srAssoc, updateSrCaps, h] at hmem
  · simp [updateSrCaps, h]
  · intro hmem
    rw [srCmdKeys_mem] at hmem
    simp [srAssoc, updateSrCaps, h] at hmem
  · simp [updateSrCaps, h]
  · intro hmem
    rw [srCmdKeys_mem] at hmem
    simp [srAssoc, updateSrCaps, h] at hmem
  · simp [updateSrCaps, h]
  · intro hmem
    rw [srCmdKeys_mem] at hmem
    simp [srAssoc, updateSrCaps, h] at hmem
  · simp [updateSrCaps, h]
  · intro hmem
    rw [srCmdKeys_mem] at hmem
    simp [srAssoc, updateSrCaps, h] at hmem

/-- An `r` frame probing reply in which every capability is `null`. -/
def rCapsAllNull : RCaps := ⟨true, true, true, true, true, true⟩

theorem c8_capability_mask_witness :
    (updateSrCaps srDefault rCapsAllNull).spe = false ∧
    "spe" ∉ srCmdKeys (updateSrCaps srDefault rCapsAllNull) ∧
    "stat" ∈ srCmdKeys srDefault := by
  have h := c8_capability_mask srDefault rCapsAllNull
  exact ⟨(h.1 rfl).1, (h.1 rfl).2, (h.2.2.2.2.2.2 "stat").mpr (by decide)⟩

theorem stringLength_zero_iff (s : String) : s.length = 0 ↔ s = "" := by
  constructor
  · intro h
    exact String.ext (show s.data = "".data from List.length_eq_zero.mp h)
  · intro h
    rw [h]
    rfl

/-- C9: the `sender.on('data')` handler writes nothing when the connection
is closed, when the workflow is idle, or when the line is empty after
whitespace removal; otherwise it writes the whitespace-stripped line with
any leading N-number removed and `N<sent>` prefixed as the first token. -/
theorem c9_sender_data_line (isClose : Bool) (wf : WorkflowState) (sent : Nat) (line : String) :
    (isClose = true → senderDataLine isClose wf sent line = none) ∧
    (wf = WorkflowState.idle → senderDataLine isClose wf sent line = none) ∧
    (stripWS line = "" → senderDataLine isClose wf sent line = none) ∧
    (isClose = false → wf ≠ WorkflowState.idle → stripWS line ≠ "" →
      senderDataLine isClose wf sent line =
        some ("N" ++ Nat.repr sent ++ dropLeadingN (stripWS line))) := by
  refine ⟨?_, ?_, ?_, ?_⟩
  · intro h
    unfold senderDataLine
    rw [h]
    rfl
  · intro h
    unfold senderDataLine
    rw [if_pos h]
    split
    · rfl
    · rfl
  · intro h
    unfold senderDataLine
    dsimp only
    rw [if_pos ((stringLength_zero_iff (stripWS line)).mpr h)]
    split
    · rfl
    · split
      · rfl
      · rfl
  · intro h1 h2 h3
    unfold senderDataLine
    rw [h1]
    dsimp only
    rw [if_neg Bool.false_ne_true, if_neg h2,
      if_neg (fun hl => h3 ((stringLength_zero_iff (stripWS line)).mp hl))]

theorem c9_sender_data_line_witness :
    senderDataLine false WorkflowState.running 5 "N12 G0 X1" = some "N5G0X1" ∧
    senderDataLine true WorkflowState.running 5 "G0" = none ∧
    senderDataLine false WorkflowState.idle 5 "G0" = none ∧
    senderDataLine false WorkflowState.running 5 "   " = none := by
  have h := c9_sender_data_line false WorkflowState.running 5 "N12 G0 X1"
  refine ⟨?_, ?_, ?_, ?_⟩
  · rw [h.2.2.2 rfl (by decide) (by decide)]
    rfl
  · exact (c9_sender_data_line true WorkflowState.running 5 "G0").1 rfl
  · exact (c9_sender_data_line false WorkflowState.idle 5 "G0").2.1 rfl
  · exact (c9_sender_data_line false WorkflowState.running 5 "   ").2.2.1 (by decide)

/-- C10: an `f` footer frame processed while the workflow is idle always
invokes `feeder.next()` — also when the status code `f[1]` is zero or
absent — while the structured error broadcast happens exactly when the
status code is non-zero. -/
theorem c10_footer_idle (c : Ctrl) (f : List Int)
    (hw : c.workflow = WorkflowState.idle) :
    TAct.feederNextA ∈ (stepEv c (TEv.fframe f)).2 ∧
    ((∃ code, TAct.emitErr code ∈ (stepEv c (TEv.fframe f)).2) ↔ f.getD 1 0 ≠ 0) := by
  have hnr : ¬(c.workflow = WorkflowState.running) := by
    rw [hw]
    exact fun hh => nomatch hh
  unfold stepEv onF
  dsimp only
  rw [if_neg hnr, if_pos hw]
  split
  next hnz =>
    obtain ⟨rest, hrest⟩ := feederNextOp_head c
    refine ⟨?_, fun _ => hnz, fun _ => ⟨f.getD 1 0, ?_⟩⟩
    · show TAct.feederNextA ∈ TAct.emitErr (f.getD 1 0) :: (feederNextOp c).2
      rw [hrest]
      simp
    · show TAct.emitErr (f.getD 1 0) ∈ TAct.emitErr (f.getD 1 0) :: (feederNextOp c).2
      simp
  next hnz =>
    obtain ⟨rest, hrest⟩ := feederNextOp_head c
    refine ⟨?_, ?_, fun h => absurd h hnz⟩
    · show TAct.feederNextA ∈ (feederNextOp c).2
      rw [hrest]
      simp
    · rintro ⟨code, hmem⟩
      have hmem2 : TAct.emitErr code ∈ (feederNextOp c).2 := hmem
      rcases feederNextOp_acts _ _ hmem2 with h | ⟨rr, h⟩ | ⟨l2, h⟩
      · exact nomatch h
      · exact nomatch h
      · exact nomatch h

theorem c10_footer_idle_witness :
    TAct.feederNextA ∈ (stepEv initCtrl (TEv.fframe [])).2 ∧
    (¬∃ code, TAct.emitErr code ∈ (stepEv initCtrl (TEv.fframe [])).2) ∧
    (∃ code, TAct.emitErr code ∈ (stepEv initCtrl (TEv.fframe [1, 23])).2) := by
  refine ⟨(c10_footer_idle initCtrl [] rfl).1, ?_, ?_⟩
  · intro hex
    exact ((c10_footer_idle initCtrl [] rfl).2.mp hex) rfl
  · exact (c10_footer_idle initCtrl [1, 23] rfl).2.mpr (by decide)
